import Mathlib

/-!
Verification of the gcp-billing-ai web backend (`web/backend/`) against its
specification.

The Python sources are shallowly embedded: Firestore collections become lists
of documents, Python dicts become association lists, the SSE generator of
`main.py` becomes a function from the observed upstream response to the list
of emitted events, and bcrypt is modelled as an ideal injective one-way
function (both call sites feed bcrypt at most 72 bytes, the regime in which
real bcrypt distinguishes all inputs).  String operations are written over
`String.data` character lists so that every definition evaluates inside the
kernel.
-/

namespace GcpBilling

/-- Model of Python `str.lower`: lowercase every character. -/
def lowerStr (s : String) : String := String.mk (s.data.map Char.toLower)

/-- The characters Python `str.strip()` / `str.isspace()` treat as
whitespace: ASCII whitespace including vertical tab and form feed, the
C1 separators 0x1C..0x1F, NEL, NBSP, and the Unicode space separators. -/
def pyWhitespace (c : Char) : Bool :=
  c.toNat = 0x09 ∨ c.toNat = 0x0A ∨ c.toNat = 0x0B ∨ c.toNat = 0x0C ∨ c.toNat = 0x0D
  ∨ c.toNat = 0x1C ∨ c.toNat = 0x1D ∨ c.toNat = 0x1E ∨ c.toNat = 0x1F
  ∨ c.toNat = 0x20 ∨ c.toNat = 0x85 ∨ c.toNat = 0xA0 ∨ c.toNat = 0x1680
  ∨ (0x2000 ≤ c.toNat ∧ c.toNat ≤ 0x200A)
  ∨ c.toNat = 0x2028 ∨ c.toNat = 0x2029 ∨ c.toNat = 0x202F ∨ c.toNat = 0x205F
  ∨ c.toNat = 0x3000

/-- Model of Python `str.strip()`: drop leading and trailing Unicode
whitespace. -/
def stripStr (s : String) : String :=
  String.mk (((s.data.dropWhile pyWhitespace).reverse.dropWhile pyWhitespace).reverse)

/-- Model of Python text slicing `s[:n]`: the first `n` characters. -/
def takeStr (s : String) (n : Nat) : String := String.mk (s.data.take n)

/-- Byte length of the UTF-8 encoding of a character list. -/
def utf8LenChars : List Char → Nat
  | [] => 0
  | c :: cs => c.utf8Size + utf8LenChars cs

/-- Byte length of the UTF-8 encoding, Python `len(s.encode("utf-8"))`. -/
def utf8Len (s : String) : Nat := utf8LenChars s.data

/-- Model of `bytes[:budget].decode("utf-8", errors="ignore")` applied to the
UTF-8 encoding of a valid string: the longest character prefix whose total
UTF-8 size fits in `budget` (the bytes of a character cut in half by the
slice are dropped by `errors="ignore"`). -/
def utf8TakeChars (budget : Nat) : List Char → List Char
  | [] => []
  | c :: cs => if c.utf8Size ≤ budget then c :: utf8TakeChars (budget - c.utf8Size) cs else []

/-- Byte-truncation of a string, see `utf8TakeChars`. -/
def utf8Truncate (budget : Nat) (s : String) : String := String.mk (utf8TakeChars budget s.data)

/-- Model of Python `s.split(sep)` for a one-character separator. -/
def splitOnChar (sep : Char) : List Char → List (List Char)
  | [] => [[]]
  | c :: cs =>
    let r := splitOnChar sep cs
    if c = sep then [] :: r
    else
      match r with
      | [] => [[c]]
      | h :: t => (c :: h) :: t

/-! ### History service (`web/backend/history.py`) -/

/-- A document of the `query_history` Firestore collection. -/
structure HistoryDoc where
  id : String
  user_id : String
  agent_name : String
  message : String
  response : String
  timestamp : Nat
deriving DecidableEq

/-- The descending-timestamp comparison of the history query
(`order_by("timestamp", direction=DESCENDING)`). -/
def newerFirst (a b : HistoryDoc) : Prop := b.timestamp ≤ a.timestamp

instance : DecidableRel newerFirst :=
  fun a b => inferInstanceAs (Decidable (b.timestamp ≤ a.timestamp))

/-- `history.get_query_history`: after the empty-user-id guard, the Firestore
query `where("user_id", "==", user_id).order_by(timestamp desc).limit(limit)`
over the collection.  (The missing-index fallback fetches the same filtered
set, re-sorts it descending in Python and applies the same final `[:limit]`,
so it is observationally this indexed path.) -/
def get_query_history (user_id : String) (limit : Nat) (db : List HistoryDoc) :
    List HistoryDoc :=
  if user_id = "" then []
  else (List.insertionSort newerFirst (db.filter (fun d => d.user_id == user_id))).take limit

/-- `history.delete_query`: fetch the document by id, return `False` when it
is missing or owned by another user, otherwise delete it and return `True`. -/
def delete_query (query_id user_id : String) (db : List HistoryDoc) :
    Bool × List HistoryDoc :=
  match db.find? (fun d => d.id == query_id) with
  | none => (false, db)
  | some d =>
    if d.user_id == user_id then (true, db.filter (fun x => !(x.id == query_id)))
    else (false, db)

/-- `history.delete_all_history`: after the empty-user-id guard, delete every
document the `where("user_id", "==", user_id)` query streams and count them. -/
def delete_all_history (user_id : String) (db : List HistoryDoc) :
    Nat × List HistoryDoc :=
  if user_id = "" then (0, db)
  else ((db.filter (fun d => d.user_id == user_id)).length,
        db.filter (fun d => !(d.user_id == user_id)))

/-! ### Authentication (`web/backend/auth.py`) -/

/-- An ideal model of a bcrypt hash: verification of a candidate against a
stored hash succeeds exactly when the candidate equals the hashed password.
Both call sites truncate their input to at most 72 UTF-8 bytes first, which
is the regime where real bcrypt behaves injectively. -/
structure BcryptHash where
  preimage : String
deriving DecidableEq

/-- `auth.verify_password` under the ideal bcrypt model (the passlib path and
the direct-bcrypt fallback compute the same check). -/
def verify_password (plain : String) (h : BcryptHash) : Bool := h.preimage == plain

/-- The `ValueError` family raised by `auth.create_user` and
`auth.get_password_hash`. -/
inductive AuthError where
  | invalidEmailDomain
  | passwordTooShort
  | userExists
  | emptyPassword
deriving DecidableEq

/-- The required signup domain, `auth.REQUIRED_DOMAIN`. -/
def REQUIRED_DOMAIN : List Char := "asl.apps-eval.com".data

/-- `auth.validate_email_domain`: non-empty, contains `@`, and
`email.split("@")[1]` (the text between the first and second `@`) equals the
required domain. -/
def validate_email_domain (email : String) : Bool :=
  if email = "" then false
  else
    match splitOnChar '@' email.data with
    | [_] => false
    | _ :: d :: _ => d == REQUIRED_DOMAIN
    | [] => false

/-- `auth.get_password_hash`: strip, truncate to 72 UTF-8 bytes when longer
(`password_bytes[:72].decode("utf-8", errors="ignore")`), re-truncate if the
re-encoded form still exceeded 72 bytes (dead under this byte model), reject
the empty result, and hash what remains. -/
def get_password_hash (password : String) : Except AuthError BcryptHash :=
  let p1 := stripStr password
  let p2 := if 72 < utf8Len p1 then utf8Truncate 72 p1 else p1
  let p3 := if 72 < utf8Len p2 then utf8Truncate 72 p2 else p2
  if p3 = "" then .error .emptyPassword
  else .ok ⟨p3⟩

/-- A document of the `users` Firestore collection. -/
structure UserDoc where
  user_id : String
  email : String
  password_hash : BcryptHash
  active : Bool
deriving DecidableEq

/-- `auth.create_user`: domain check, six-character minimum, uniqueness of
the lowercased email, then hash the password and insert the new active user.
`new_id` stands for the generated `secrets.token_urlsafe(16)` document id. -/
def create_user (email password new_id : String) (db : List UserDoc) :
    Except AuthError (UserDoc × List UserDoc) :=
  if !(validate_email_domain email) then .error .invalidEmailDomain
  else if password.length < 6 then .error .passwordTooShort
  else if db.any (fun u => u.email == lowerStr email) then .error .userExists
  else
    match get_password_hash password with
    | .error e => .error e
    | .ok h =>
      let u : UserDoc := ⟨new_id, lowerStr email, h, true⟩
      .ok (u, db ++ [u])

/-- `auth.authenticate_user`: look the user up by lowercased email
(`limit(1)`), refuse inactive accounts, truncate the candidate password to 72
UTF-8 bytes (this path does not strip), verify against the stored hash, and
return the `(user_id, email)` pair. -/
def authenticate_user (email password : String) (db : List UserDoc) :
    Option (String × String) :=
  match db.find? (fun u => u.email == lowerStr email) with
  | none => none
  | some u =>
    if !u.active then none
    else
      let p := if 72 < utf8Len password then utf8Truncate 72 password else password
      if verify_password p u.password_hash then some (u.user_id, u.email) else none

/-- `auth.delete_user`: soft delete.  If a document with this id exists, set
`active := False` (plus bookkeeping timestamps) and return `True`; only a
missing document returns `False` — the `active` flag is never consulted. -/
def delete_user (user_id : String) (db : List UserDoc) : Bool × List UserDoc :=
  if db.any (fun u => u.user_id == user_id) then
    (true, db.map (fun u => if u.user_id == user_id then { u with active := false } else u))
  else (false, db)

/-! ### Streaming relay (`web/backend/main.py`, `query_agent_stream_with_save`) -/

/-- Minimal JSON values, as delivered by `json.loads`.  Objects carry
distinct keys, as `json.loads` produces. -/
inductive Json where
  | null
  | bool (b : Bool)
  | num (n : Int)
  | str (s : String)
  | arr (elems : List Json)
  | obj (fields : List (String × Json))

/-- Python truthiness, `if value:`. -/
def Json.truthy : Json → Bool
  | .null => false
  | .bool b => b
  | .num n => n != 0
  | .str s => s != ""
  | .arr l => !l.isEmpty
  | .obj fs => !fs.isEmpty

/-- One element of a `parts` array.  A non-dict part is skipped by the
`isinstance` guard; a dict part contributes its `text` field when that is a
non-empty string (`if text:` drops falsy values); a truthy non-string `text`
makes `response_text += text` raise (`none`), which aborts the rest of the
line. -/
def partStep : Json → Option (List String)
  | .obj fields =>
    match fields.lookup "text" with
    | none => some []
    | some (.str s) => some (if s = "" then [] else [s])
    | some v => if v.truthy then none else some []
  | _ => some []

/-- The `for part in parts` loop: the texts emitted so far, and whether the
loop completed without raising (a raise keeps the earlier increments and
aborts the rest of the line). -/
def partsLoop : List Json → List String × Bool
  | [] => ([], true)
  | p :: rest =>
    match partStep p with
    | none => ([], false)
    | some ts =>
      let r := partsLoop rest
      (ts ++ r.1, r.2)

/-- Handling of one `content` value: non-dicts are skipped by the
`isinstance` guard; an absent `parts` defaults to `[]`; iterating a string
yields characters (no dict part, no text) and iterating a dict yields its
string keys (likewise); `enumerate` over null, a bool or a number raises. -/
def contentStep : Json → List String × Bool
  | .obj fields =>
    match fields.lookup "parts" with
    | none => ([], true)
    | some (.arr l) => partsLoop l
    | some (.str _) => ([], true)
    | some (.obj _) => ([], true)
    | some _ => ([], false)
  | _ => ([], true)

/-- Shape (a): `data["content"]["parts"][i]["text"]`; a missing `content`
defaults to the empty dict. -/
def block1 (fields : List (String × Json)) : List String × Bool :=
  match fields.lookup "content" with
  | none => ([], true)
  | some c => contentStep c

/-- One candidate of shape (b): `candidate.get("content", {})` raises on a
non-dict candidate; a dict candidate is handled like a `content` value. -/
def candidateStep : Json → List String × Bool
  | .obj fields =>
    match fields.lookup "content" with
    | none => ([], true)
    | some c => contentStep c
  | _ => ([], false)

/-- The `for candidate in candidates` loop, with the same abort behavior as
`partsLoop`. -/
def candidatesLoop : List Json → List String × Bool
  | [] => ([], true)
  | c :: rest =>
    let r := candidateStep c
    if r.2 = false then (r.1, false)
    else
      let rr := candidatesLoop rest
      (r.1 ++ rr.1, rr.2)

/-- Shape (b): `data["candidates"][i]["content"]["parts"][j]["text"]`.
Iterating a non-empty string or dict yields string candidates whose `.get`
raises; `enumerate` over null, a bool or a number raises. -/
def block2 (fields : List (String × Json)) : List String × Bool :=
  match fields.lookup "candidates" with
  | none => ([], true)
  | some (.arr l) => candidatesLoop l
  | some (.str s) => if s = "" then ([], true) else ([], false)
  | some (.obj fs) => if fs.isEmpty then ([], true) else ([], false)
  | some _ => ([], false)

/-- Shape (c): a top-level `data["text"]`, emitted when a non-empty string;
a truthy non-string makes `response_text += text` raise. -/
def block3 (fields : List (String × Json)) : List String × Bool :=
  match fields.lookup "text" with
  | none => ([], true)
  | some (.str s) => if s = "" then ([], true) else ([s], true)
  | some v => if v.truthy then ([], false) else ([], true)

/-- One parsed line's contribution.  The handler runs the three shape
blocks in order inside one `try`: an exception in an earlier block keeps the
increments already emitted and skips the rest of the line; a non-object
frame has no `.get` and the whole line is skipped. -/
def lineTexts : Json → List String
  | .obj fields =>
    let r1 := block1 fields
    if r1.2 = false then r1.1
    else
      let r2 := block2 fields
      if r2.2 = false then r1.1 ++ r2.1
      else r1.1 ++ r2.1 ++ (block3 fields).1
  | _ => []

/-- The raw-body fallback extraction (only the `content.parts` shape): any
raise is caught by the fallback's own handler, keeping the increments
emitted so far; a non-dict body has no `.get` and contributes nothing. -/
def bodyTexts : Json → List String
  | .obj fields => (block1 fields).1
  | _ => []


/-- One SSE `data:` payload emitted by the relay; each Python `yield`
populates a subset of these fields. -/
structure SSEData where
  text : Option String := none
  error : Option String := none
  done : Bool := false
  query_id : Option String := none
  save_error : Option String := none
  warning : Option String := none
deriving DecidableEq

/-- The event carrying one text increment. -/
def mkTextEvent (t : String) : SSEData := { text := some t }

/-- The upstream `:streamQuery` HTTP response as the relay observes it:
status code, raw body, the body parsed as JSON when it parses, and the
newline-delimited frames of `iter_lines` — `some` parsed frame, or `none`
for an empty or non-JSON line. -/
structure UpstreamResp where
  status : Nat
  body : String
  bodyJson : Option Json
  chunks : List (Option Json)

/-- The frame loop of `query_agent_stream_with_save`: accumulate
`response_text` and the emitted text events across frames, skipping `none`
lines without aborting. -/
def streamLoop : List (Option Json) → String → List SSEData → String × List SSEData
  | [], acc, evs => (acc, evs)
  | none :: rest, acc, evs => streamLoop rest acc evs
  | some d :: rest, acc, evs =>
    streamLoop rest (acc ++ String.join (lineTexts d))
      (evs ++ (lineTexts d).map mkTextEvent)

/-- All increments extracted from the stream, in extraction order. -/
def extractedTexts (chunks : List (Option Json)) : List String :=
  chunks.flatMap (fun c => match c with | none => [] | some d => lineTexts d)

/-- What the relay generator produced: the SSE events in emission order, and
the text handed to `save_query` when it was called. -/
structure RelayOutput where
  events : List SSEData
  saved : Option String
deriving DecidableEq

/-- The tail of the generator: persist a non-empty `response_text` through
`save_query` (modelled as succeeding with document id `new_id`) and emit the
final done marker; an empty text skips the save and emits the warning
variant. -/
def finishStream (response_text : String) (evs : List SSEData) (new_id : String) :
    RelayOutput :=
  if response_text = "" then
    { events := evs ++ [{ done := true, warning := some "Empty response from agent" }],
      saved := none }
  else
    { events := evs ++ [{ query_id := some new_id, done := true }],
      saved := some response_text }

/-- `query_agent_stream_with_save` from the point the upstream response is
available (agent lookup and credential acquisition succeeded): a non-200
status yields the single error event (with the body truncated to 500
characters) and returns; otherwise the frame loop runs, with the raw-body
fallback when `iter_lines` produced no chunks at all. -/
def relayStream (resp : UpstreamResp) (new_id : String) : RelayOutput :=
  if resp.status ≠ 200 then
    { events := [{ error := some ("Agent query failed (HTTP " ++ toString resp.status ++
                    "): " ++ takeStr resp.body 500),
                   done := true }],
      saved := none }
  else if resp.chunks.isEmpty then
    match resp.bodyJson with
    | some d => finishStream (String.join (bodyTexts d)) ((bodyTexts d).map mkTextEvent) new_id
    | none =>
      if resp.body = "" then finishStream "" [] new_id
      else finishStream resp.body [mkTextEvent resp.body] new_id
  else
    finishStream (streamLoop resp.chunks "" []).1 (streamLoop resp.chunks "" []).2 new_id

/-- The texts of the emitted text events, in emission order. -/
def eventTexts (evs : List SSEData) : List String :=
  evs.flatMap (fun e => match e.text with | some t => [t] | none => [])

/-- A frame of the primary shape (a), `parts` carrying the given texts. -/
def primaryFrame (parts : List String) : Json :=
  .obj [("content", .obj [("parts", .arr (parts.map (fun t => .obj [("text", .str t)])))])]

/-! ### Agent registry (`web/backend/main.py`) -/

/-- One reasoning engine of the Vertex AI listing response. -/
structure Engine where
  displayName : String
  name : String
  description : String
deriving DecidableEq

/-- One agent configuration value. -/
structure AgentConfig where
  name : String
  display_name : String
  description : String
  reasoning_engine_id : String
deriving DecidableEq

/-- `engine_id = name.split('/')[-1] if '/' in name else name`. -/
def engineId (name : String) : String :=
  if name.data.contains '/' then String.mk (((splitOnChar '/' name.data).getLast?).getD [])
  else name

/-- The agent key: the lowercased display name with spaces and hyphens turned
into underscores, scrubbed of other non-alphanumerics, with `agent_<id>`
fallbacks for an empty display name and for a fully scrubbed key. -/
def sanitizeKey (display_name eid : String) : String :=
  let base :=
    if display_name = "" then "agent_" ++ eid
    else String.mk (display_name.data.map (fun c =>
      let c := c.toLower
      if c = ' ' ∨ c = '-' then '_' else c))
  let key := String.mk (base.data.filter (fun c => c.isAlphanum ∨ c = '_'))
  if key = "" then "agent_" ++ eid else key

/-- Python dict assignment `configs[key] = value`: replace the binding in
place or append a new one. -/
def upsert (key : String) (v : AgentConfig) :
    List (String × AgentConfig) → List (String × AgentConfig)
  | [] => [(key, v)]
  | (k, w) :: rest => if k == key then (key, v) :: rest else (k, w) :: upsert key v rest

/-- `scan_agent_engine_reasoning_engines` on an HTTP 200 listing: fold the
engines into the config dict, with the documented display-name and
description fallbacks. -/
def buildConfigs (engines : List Engine) : List (String × AgentConfig) :=
  engines.foldl (fun acc e =>
    let eid := engineId e.name
    let key := sanitizeKey e.displayName eid
    upsert key
      { name := key
        display_name := if e.displayName = "" then "Agent " ++ eid else e.displayName
        description := if e.description = "" then "Vertex AI Agent Engine agent" else e.description
        reasoning_engine_id := eid } acc) []

/-- How the directory scan went: a 200 listing, a non-200 status, or an
exception (credential failure, timeout, ...). -/
inductive ScanOutcome where
  | ok (engines : List Engine)
  | httpError (status : Nat)
  | exn
deriving DecidableEq

/-- `scan_agent_engine_reasoning_engines` never raises: a non-200 status and
an exception both produce the empty config dict. -/
def scanResult : ScanOutcome → List (String × AgentConfig)
  | .ok engines => buildConfigs engines
  | .httpError _ => []
  | .exn => []

/-- Whether the scan failed (the listing call did not come back 200). -/
def ScanOutcome.failed : ScanOutcome → Bool
  | .ok _ => false
  | .httpError _ => true
  | .exn => true

/-- The module-level cache, `_agent_configs_cache` and
`_agent_configs_cache_time`. -/
structure CacheState where
  cache : Option (List (String × AgentConfig))
  cacheTime : Nat
deriving DecidableEq

/-- `AGENT_CONFIGS_CACHE_TTL`, seconds. -/
def AGENT_CONFIGS_CACHE_TTL : Nat := 300

/-- `load_agent_configs`: serve the cache while it is fresh, otherwise scan
(`outcome` is the directory call's result at time `now`) and unconditionally
overwrite the cache with whatever the scan returned. -/
def load_agent_configs (force_refresh : Bool) (st : CacheState) (now : Nat)
    (outcome : ScanOutcome) : List (String × AgentConfig) × CacheState :=
  match st.cache with
  | some c =>
    if force_refresh = false ∧ now - st.cacheTime < AGENT_CONFIGS_CACHE_TTL then (c, st)
    else (scanResult outcome, ⟨some (scanResult outcome), now⟩)
  | none => (scanResult outcome, ⟨some (scanResult outcome), now⟩)

/-- The response item of the `/agents` endpoint. -/
structure AgentInfo where
  name : String
  display_name : String
  description : String
  reasoning_engine_id : String
  is_available : Bool
deriving DecidableEq

/-- Ascending comparison on display names, the lexicographic order on their
character lists (`agents.sort(key=lambda x: x.display_name)`). -/
def displayLe (x y : AgentInfo) : Prop := x.display_name.data ≤ y.display_name.data

instance : DecidableRel displayLe :=
  fun x y => inferInstanceAs (Decidable (x.display_name.data ≤ y.display_name.data))

instance : IsTotal AgentInfo displayLe :=
  ⟨fun x y => le_total x.display_name.data y.display_name.data⟩

instance : IsTrans AgentInfo displayLe :=
  ⟨fun _ _ _ h₁ h₂ => le_trans h₁ h₂⟩

/-- Wrapping one config as an `AgentInfo`
(`is_available = bool(config["reasoning_engine_id"])`). -/
def toAgentInfo (c : AgentConfig) : AgentInfo :=
  { name := c.name
    display_name := c.display_name
    description := c.description
    reasoning_engine_id := c.reasoning_engine_id
    is_available := c.reasoning_engine_id != "" }

/-- The `/agents` endpoint `list_agents`: load the configs (cache or scan),
wrap them, and sort ascending by display name. -/
def list_agents (force_refresh : Bool) (st : CacheState) (now : Nat)
    (outcome : ScanOutcome) : List AgentInfo :=
  List.insertionSort displayLe
    (((load_agent_configs force_refresh st now outcome).1).map (fun p => toAgentInfo p.2))

/-! ### Concrete data used by witnesses and counterexamples -/

/-- A small history collection owned by two users. -/
def sampleHistory : List HistoryDoc :=
  [⟨"q1", "alice", "bq_agent", "m1", "r1", 5⟩,
   ⟨"q2", "bob", "bq_agent", "m2", "r2", 3⟩]

/-- The user record produced by signing up with a trailing-space password:
the stored hash is of the stripped form `"abcdef"`. -/
def spacedUser : UserDoc := ⟨"u1", "a@asl.apps-eval.com", ⟨"abcdef"⟩, true⟩

/-- The user record produced by a plain signup with password `"abcdef"`. -/
def plainUser : UserDoc := ⟨"u2", "b@asl.apps-eval.com", ⟨"abcdef"⟩, true⟩

/-- An existing, still-active account. -/
def activeUser : UserDoc := ⟨"u3", "c@asl.apps-eval.com", ⟨"secret"⟩, true⟩

/-- The same account after the soft delete. -/
def inactiveUser : UserDoc := ⟨"u3", "c@asl.apps-eval.com", ⟨"secret"⟩, false⟩

/-- A 73-byte ASCII password. -/
def pw73 : String := "aaaaaaaaaaaaaaaaaaaaaaaaaaaaaaaaaaaaaaaaaaaaaaaaaaaaaaaaaaaaaaaaaaaaaaaaa".data.take 73 |> String.mk

/-- A previously fetched good agent configuration. -/
def goodConfig : AgentConfig :=
  ⟨"billing_agent", "Billing Agent", "BigQuery billing agent", "123"⟩

/-- The three mismatch situations of `authenticate_user`: unknown email,
deactivated account, and wrong password for an active account. -/
def authMismatch (email password : String) (db : List UserDoc) : Prop :=
  db.find? (fun u => u.email == lowerStr email) = none
  ∨ (∃ u, db.find? (fun v => v.email == lowerStr email) = some u ∧ u.active = false)
  ∨ (∃ u, db.find? (fun v => v.email == lowerStr email) = some u ∧ u.active = true ∧
      verify_password
        (if 72 < utf8Len password then utf8Truncate 72 password else password)
        u.password_hash = false)

/-! ### Helper lemmas -/

deriving instance DecidableEq for Except

theorem string_foldl_append (l : List String) (a : String) :
    List.foldl (fun r s => r ++ s) a l = a ++ List.foldl (fun r s => r ++ s) "" l := by
  induction l generalizing a with
  | nil => simp [String.append_empty]
  | cons s t ih =>
    simp only [List.foldl_cons]
    rw [ih (a ++ s), ih ("" ++ s), String.empty_append, String.append_assoc]

theorem string_join_cons (s : String) (t : List String) :
    String.join (s :: t) = s ++ String.join t := by
  show List.foldl (fun r s => r ++ s) "" (s :: t) = s ++ List.foldl (fun r s => r ++ s) "" t
  rw [List.foldl_cons, String.empty_append]
  exact string_foldl_append t s

theorem string_join_append (xs ys : List String) :
    String.join (xs ++ ys) = String.join xs ++ String.join ys := by
  induction xs with
  | nil =>
    show String.join ys = String.join [] ++ String.join ys
    rw [show String.join ([] : List String) = "" from rfl, String.empty_append]
  | cons s t ih =>
    rw [List.cons_append, string_join_cons, string_join_cons, ih, String.append_assoc]

theorem streamLoop_spec (chunks : List (Option Json)) (acc : String) (evs : List SSEData) :
    streamLoop chunks acc evs =
      (acc ++ String.join (extractedTexts chunks),
       evs ++ (extractedTexts chunks).map mkTextEvent) := by
  induction chunks generalizing acc evs with
  | nil =>
    rw [show streamLoop [] acc evs = (acc, evs) from rfl,
      show extractedTexts [] = [] from rfl,
      show String.join ([] : List String) = "" from rfl, String.append_empty]
    simp
  | cons c rest ih =>
    cases c with
    | none =>
      rw [show streamLoop (none :: rest) acc evs = streamLoop rest acc evs from rfl, ih]
      simp [extractedTexts]
    | some d =>
      rw [show streamLoop (some d :: rest) acc evs =
            streamLoop rest (acc ++ String.join (lineTexts d))
              (evs ++ (lineTexts d).map mkTextEvent) from rfl, ih]
      simp only [extractedTexts, List.flatMap_cons, string_join_append, List.map_append,
        String.append_assoc, List.append_assoc]

theorem eventTexts_append (xs ys : List SSEData) :
    eventTexts (xs ++ ys) = eventTexts xs ++ eventTexts ys :=
  List.flatMap_append xs ys _

theorem eventTexts_map_mkTextEvent (ts : List String) :
    eventTexts (ts.map mkTextEvent) = ts := by
  induction ts with
  | nil => rfl
  | cons t rest ih =>
    simp only [List.map_cons, eventTexts, List.flatMap_cons] at *
    rw [ih]
    rfl

theorem utf8LenChars_take_le (budget : Nat) (l : List Char) :
    utf8LenChars (utf8TakeChars budget l) ≤ budget := by
  induction l generalizing budget with
  | nil => simp [utf8TakeChars, utf8LenChars]
  | cons c cs ih =>
    unfold utf8TakeChars
    by_cases h : c.utf8Size ≤ budget
    · rw [if_pos h]
      unfold utf8LenChars
      have := ih (budget - c.utf8Size)
      omega
    · rw [if_neg h]
      simp [utf8LenChars]

theorem utf8Len_truncate_le (budget : Nat) (s : String) :
    utf8Len (utf8Truncate budget s) ≤ budget :=
  utf8LenChars_take_le budget s.data

theorem utf8TakeChars_72_ne_nil (l : List Char) (h : 72 < utf8LenChars l) :
    utf8TakeChars 72 l ≠ [] := by
  cases l with
  | nil => simp [utf8LenChars] at h
  | cons c cs =>
    unfold utf8TakeChars
    have hc : c.utf8Size ≤ 72 := le_trans (Char.utf8Size_le_four c) (by omega)
    rw [if_pos hc]
    simp

theorem get_password_hash_eq (p : String) :
    get_password_hash p =
      (if (if 72 < utf8Len (stripStr p) then utf8Truncate 72 (stripStr p) else stripStr p) = ""
       then .error .emptyPassword
       else .ok ⟨if 72 < utf8Len (stripStr p) then utf8Truncate 72 (stripStr p)
                 else stripStr p⟩) := by
  have h2 : ∀ q : String, ¬ 72 < utf8Len (utf8Truncate 72 q) := fun q => by
    have := utf8Len_truncate_le 72 q
    omega
  unfold get_password_hash
  by_cases h : 72 < utf8Len (stripStr p)
  · simp only [if_pos h, if_neg (h2 (stripStr p))]
  · simp only [if_neg h]

theorem find?_append_last {α : Type} (p : α → Bool) (db : List α) (u : α)
    (hdb : db.any p = false) (hu : p u = true) :
    (db ++ [u]).find? p = some u := by
  rw [List.find?_append]
  have h1 : db.find? p = none := List.find?_eq_none.mpr (by
    intro x hx
    have := List.any_eq_false.mp hdb x hx
    simpa using this)
  rw [h1]
  simp [List.find?, hu]

theorem any_eq_of_fun_eq {α : Type} (l : List α) (p q : α → Bool) (h : ∀ x, p x = q x) :
    l.any p = l.any q := by
  induction l with
  | nil => rfl
  | cons a t ih => simp [List.any_cons, h a, ih]

theorem authenticate_mismatch_none (email password : String) (db : List UserDoc)
    (h : authMismatch email password db) :
    authenticate_user email password db = none := by
  unfold authenticate_user
  rcases h with hf | ⟨u, hf, hina⟩ | ⟨u, hf, hact, hver⟩
  · rw [hf]
  · rw [hf]
    simp [hina]
  · rw [hf]
    simp [hact, hver]

/-! ### Claims -/

/-- C1: per-user isolation of history — a listing scoped to user A never
returns a record owned by B ≠ A, `delete_query` refuses (returning `false`
and leaving the collection unchanged) when the record with the requested id
is owned by B, and `delete_all_history` for A keeps every record owned by B. -/
theorem history_user_isolation (A B : String) (db : List HistoryDoc) (qid : String)
    (lim : Nat) (hAB : A ≠ B) :
    (∀ r ∈ get_query_history A lim db, r.user_id ≠ B)
    ∧ (∀ d, db.find? (fun x => x.id == qid) = some d → d.user_id = B →
        delete_query qid A db = (false, db))
    ∧ (∀ d ∈ db, d.user_id = B → d ∈ (delete_all_history A db).2) := by
  refine ⟨?_, ?_, ?_⟩
  · intro r hr
    unfold get_query_history at hr
    split at hr
    · simp at hr
    · have h1 := List.take_subset _ _ hr
      rw [List.mem_insertionSort] at h1
      have h2 := (List.mem_filter.mp h1).2
      have h3 : r.user_id = A := by simpa using h2
      rw [h3]
      exact hAB
  · intro d hfind hB
    unfold delete_query
    rw [hfind]
    have hne : (d.user_id == A) = false := by
      rw [hB]
      simpa using fun h => hAB h.symm
    simp [hne]
  · intro d hd hB
    unfold delete_all_history
    split
    · simpa using hd
    · simp only
      refine List.mem_filter.mpr ⟨hd, ?_⟩
      rw [hB]
      simpa using fun h => hAB h.symm

/-- C1 witness: a concrete two-user collection. -/
theorem history_user_isolation_witness :
    (∀ r ∈ get_query_history "alice" 10 sampleHistory, r.user_id ≠ "bob")
    ∧ (∀ d, sampleHistory.find? (fun x => x.id == "q2") = some d → d.user_id = "bob" →
        delete_query "q2" "alice" sampleHistory = (false, sampleHistory))
    ∧ (∀ d ∈ sampleHistory, d.user_id = "bob" → d ∈ (delete_all_history "alice" sampleHistory).2) :=
  history_user_isolation "alice" "bob" sampleHistory "q2" 10 (by decide)

/-- C3: on an upstream non-200 status the relay emits exactly one event —
the error event carrying the status and the body truncated to 500 characters,
with the done flag set on it — no text event, and `save_query` is not
called. -/
theorem upstream_non200_single_error (resp : UpstreamResp) (new_id : String)
    (h : resp.status ≠ 200) :
    (relayStream resp new_id).events =
      [{ error := some ("Agent query failed (HTTP " ++ toString resp.status ++ "): " ++
          takeStr resp.body 500),
         done := true }]
    ∧ (∀ e ∈ (relayStream resp new_id).events, e.text = none)
    ∧ (relayStream resp new_id).saved = none := by
  unfold relayStream
  rw [if_pos h]
  refine ⟨rfl, ?_, rfl⟩
  intro e he
  simp only [List.mem_singleton] at he
  rw [he]

/-- C3 witness: an HTTP 500 with body `"boom"`. -/
theorem upstream_non200_single_error_witness :
    (relayStream ⟨500, "boom", none, []⟩ "q2").events =
      [{ error := some ("Agent query failed (HTTP " ++ toString (500 : Nat) ++ "): " ++
          takeStr "boom" 500),
         done := true }]
    ∧ (∀ e ∈ (relayStream ⟨500, "boom", none, []⟩ "q2").events, e.text = none)
    ∧ (relayStream ⟨500, "boom", none, []⟩ "q2").saved = none :=
  upstream_non200_single_error ⟨500, "boom", none, []⟩ "q2" (by decide)

/-- C8 counterexample: the soft delete checks only that the document exists,
so the second `delete_user` call on the already-inactive account returns
`true`, where the claim demands `false`. -/
theorem deactivate_repeat_cex :
    delete_user "u3" [activeUser] = (true, [inactiveUser])
    ∧ (delete_user "u3" (delete_user "u3" [activeUser]).2).1 = true := by
  decide

/-- C8 amended: `delete_user` returns `true` exactly when a document with the
id exists (the `active` flag is never consulted), sets `active := false` on
the matching document, and a repeated call returns the same flag again —
`true`, not `false`, once the user is already inactive. -/
theorem deactivate_return_behavior (uid : String) (db : List UserDoc) :
    ((delete_user uid db).1 = db.any (fun u => u.user_id == uid))
    ∧ (∀ u ∈ (delete_user uid db).2, u.user_id = uid → u.active = false)
    ∧ ((delete_user uid (delete_user uid db).2).1 = (delete_user uid db).1) := by
  have hfix : ∀ v : UserDoc,
      ((if v.user_id == uid then { v with active := false } else v).user_id == uid)
        = (v.user_id == uid) := by
    intro v
    by_cases hv : (v.user_id == uid) = true
    · rw [if_pos hv, hv]
    · rw [if_neg hv]
  unfold delete_user
  by_cases h : db.any (fun u => u.user_id == uid) = true
  · rw [if_pos h]
    refine ⟨h.symm, ?_, ?_⟩
    · intro u hu huid
      obtain ⟨v, hv, rfl⟩ := List.mem_map.mp hu
      by_cases hvid : (v.user_id == uid) = true
      · rw [if_pos hvid]
      · rw [if_neg hvid] at huid ⊢
        exact absurd (by simp [huid]) hvid
    · have hmap : (db.map (fun u => if u.user_id == uid then { u with active := false } else u)).any
          (fun u => u.user_id == uid) = true := by
        rw [List.any_map]
        calc db.any ((fun u : UserDoc => u.user_id == uid) ∘
                (fun u => if u.user_id == uid then { u with active := false } else u))
            = db.any (fun u => u.user_id == uid) :=
              any_eq_of_fun_eq db _ _ (fun v => hfix v)
          _ = true := h
      rw [if_pos hmap]
  · rw [if_neg h]
    have hfalse : db.any (fun u => u.user_id == uid) = false := by
      simpa using h
    refine ⟨hfalse.symm, ?_, ?_⟩
    · intro u hu huid
      have := List.any_eq_false.mp hfalse u hu
      exact absurd (by simp [huid]) this
    · rw [if_neg h]

/-- C8 witness: the amended behavior at a concrete one-user collection. -/
theorem deactivate_return_behavior_witness :
    ((delete_user "u3" [activeUser]).1 = [activeUser].any (fun u => u.user_id == "u3"))
    ∧ (∀ u ∈ (delete_user "u3" [activeUser]).2, u.user_id = "u3" → u.active = false)
    ∧ ((delete_user "u3" (delete_user "u3" [activeUser]).2).1
        = (delete_user "u3" [activeUser]).1) :=
  deactivate_return_behavior "u3" [activeUser]

/-- C9 counterexample: with a good but stale cache, a failed scan makes
`load_agent_configs` return the empty sequence and overwrite the cache with
it — it neither returns the last good cache nor preserves it. -/
theorem registry_failure_cex :
    (load_agent_configs false ⟨some [("billing_agent", goodConfig)], 0⟩ 1000 .exn).1 = []
    ∧ (load_agent_configs false ⟨some [("billing_agent", goodConfig)], 0⟩ 1000 .exn).2.cache
        = some []
    ∧ (load_agent_configs false ⟨some [("billing_agent", goodConfig)], 0⟩ 1000 .exn).1
        ≠ [("billing_agent", goodConfig)] := by
  decide

/-- C9 amended: `load_agent_configs` never raises; when the scan fails it
returns the cached configs only if the cache is fresh (younger than the TTL
and not force-refreshed, in which case no scan happens), and otherwise
returns the empty sequence and replaces the cache with it. -/
theorem registry_failure_behavior (force_refresh : Bool) (st : CacheState) (now : Nat)
    (outcome : ScanOutcome) (hfail : outcome.failed = true) :
    load_agent_configs force_refresh st now outcome =
      match st.cache with
      | some c =>
        if force_refresh = false ∧ now - st.cacheTime < AGENT_CONFIGS_CACHE_TTL
        then (c, st) else ([], ⟨some [], now⟩)
      | none => ([], ⟨some [], now⟩) := by
  have hscan : scanResult outcome = [] := by
    cases outcome with
    | ok engines => simp [ScanOutcome.failed] at hfail
    | httpError s => rfl
    | exn => rfl
  obtain ⟨cache, time⟩ := st
  cases cache with
  | none => simp [load_agent_configs, hscan]
  | some c =>
    dsimp only [load_agent_configs]
    split
    · rfl
    · rw [hscan]

/-- C9 witness: stale good cache, failed scan. -/
theorem registry_failure_behavior_witness :
    load_agent_configs false ⟨some [("billing_agent", goodConfig)], 0⟩ 1000 .exn
      = ([], ⟨some [], 1000⟩) :=
  (registry_failure_behavior false ⟨some [("billing_agent", goodConfig)], 0⟩ 1000 .exn
    (by decide)).trans (by decide)

theorem partsLoop_of_texts (ps : List String) :
    partsLoop (ps.map fun t => Json.obj [("text", Json.str t)])
      = (ps.filter (fun t => !(t == "")), true) := by
  induction ps with
  | nil => rfl
  | cons p rest ih =>
    rw [List.map_cons, List.filter_cons]
    show (let r := partsLoop (rest.map fun t => Json.obj [("text", Json.str t)])
          (((if p = "" then [] else [p]) ++ r.1 : List String), r.2)) = _
    rw [ih]
    by_cases hp : p = ""
    · simp [hp]
    · simp [hp]

/-- For a primary-shape frame the handler extracts exactly the non-empty
part texts, in order, without raising. -/
theorem lineTexts_primaryFrame (ps : List String) :
    lineTexts (primaryFrame ps) = ps.filter (fun t => !(t == "")) := by
  have h1 : block1 [("content",
      Json.obj [("parts", Json.arr (ps.map fun t => Json.obj [("text", Json.str t)]))])]
      = (ps.filter (fun t => !(t == "")), true) := by
    show contentStep (Json.obj [("parts",
      Json.arr (ps.map fun t => Json.obj [("text", Json.str t)]))]) = _
    show partsLoop (ps.map fun t => Json.obj [("text", Json.str t)]) = _
    exact partsLoop_of_texts ps
  show (let r1 := block1 [("content",
          Json.obj [("parts", Json.arr (ps.map fun t => Json.obj [("text", Json.str t)]))])]
        if r1.2 = false then r1.1
        else
          let r2 := block2 [("content",
            Json.obj [("parts", Json.arr (ps.map fun t => Json.obj [("text", Json.str t)]))])]
          if r2.2 = false then r1.1 ++ r2.1
          else r1.1 ++ r2.1 ++ (block3 [("content",
            Json.obj [("parts", Json.arr (ps.map fun t => Json.obj [("text", Json.str t)]))])]).1)
      = _
  rw [h1]
  simp +decide [block2, block3, List.lookup]

/-- C2: for a 200-status upstream stream whose frames all have the primary
shape, the relay emits one text event per extracted increment, in extraction
order, and (when any text was extracted) the text handed to `save_query` is
the concatenation of exactly those increments in that order. -/
theorem stream_order_and_save (pss : List (List String)) (resp : UpstreamResp)
    (new_id : String)
    (hstatus : resp.status = 200)
    (hchunks : resp.chunks = pss.map (fun ps => some (primaryFrame ps)))
    (hne : pss ≠ [])
    (hjoin : String.join (pss.flatMap (fun ps => ps.filter (fun t => !(t == "")))) ≠ "") :
    eventTexts (relayStream resp new_id).events
        = pss.flatMap (fun ps => ps.filter (fun t => !(t == "")))
    ∧ (relayStream resp new_id).saved
        = some (String.join (pss.flatMap (fun ps => ps.filter (fun t => !(t == ""))))) := by
  have hext : extractedTexts resp.chunks
      = pss.flatMap (fun ps => ps.filter (fun t => !(t == ""))) := by
    rw [hchunks]
    unfold extractedTexts
    rw [List.flatMap_map]
    simp only [lineTexts_primaryFrame]
  have hempty : resp.chunks.isEmpty = false := by
    rw [hchunks]
    cases pss with
    | nil => exact absurd rfl hne
    | cons a b => rfl
  unfold relayStream
  rw [hstatus, hempty]
  rw [if_neg (show ¬ ((200 : Nat) ≠ 200) by simp),
    if_neg (show ¬ (false = true) by simp)]
  rw [streamLoop_spec resp.chunks "" [], hext]
  dsimp only
  unfold finishStream
  rw [String.empty_append, List.nil_append, if_neg hjoin]
  refine ⟨?_, rfl⟩
  dsimp only
  rw [eventTexts_append, eventTexts_map_mkTextEvent]
  simp [eventTexts]

/-- C2 witness: frames carrying `"Hi"` then `" there"` emit `"Hi"` then
`" there"` and persist `"Hi there"`. -/
theorem stream_order_and_save_witness :
    eventTexts (relayStream ⟨200, "", none,
        [some (primaryFrame ["Hi"]), some (primaryFrame [" there"])]⟩ "q1").events
      = ["Hi", " there"]
    ∧ (relayStream ⟨200, "", none,
        [some (primaryFrame ["Hi"]), some (primaryFrame [" there"])]⟩ "q1").saved
      = some "Hi there" := by
  have h := stream_order_and_save [["Hi"], [" there"]]
    ⟨200, "", none, [some (primaryFrame ["Hi"]), some (primaryFrame [" there"])]⟩ "q1"
    rfl rfl (by decide) (by decide)
  exact ⟨h.1.trans (by decide), h.2.trans (by decide)⟩

/-- C5 counterexample: a 73-byte password is accepted by `create_user` (its
stored hash is of the 72-byte truncation), not rejected; and a 6-byte
(3-character) password is rejected even though its byte length is inside the
claimed 6..72-byte bound, because the minimum is checked in characters. -/
theorem signup_truncation_cex :
    (create_user "a@asl.apps-eval.com" pw73 "u1" []).isOk = true
    ∧ utf8Len pw73 = 73
    ∧ (create_user "a@asl.apps-eval.com" pw73 "u1" []).toOption.map
        (fun r => r.1.password_hash.preimage) = some (utf8Truncate 72 pw73)
    ∧ utf8Len (utf8Truncate 72 pw73) = 72
    ∧ create_user "a@asl.apps-eval.com" "ééé" "u1" [] = .error .passwordTooShort
    ∧ utf8Len "ééé" = 6 := by
  decide

/-- C5 amended: `create_user` rejects passwords shorter than six characters;
any longer password whose stripped form (Python `str.strip()`, all Unicode
whitespace) is non-empty is accepted — stored as the stripped form when its
UTF-8 byte length is at most 72, and silently truncated to its longest
72-byte prefix when longer, never rejected for being too long. -/
theorem signup_password_policy (email password new_id : String) (db : List UserDoc)
    (hdom : validate_email_domain email = true)
    (hfree : db.any (fun u => u.email == lowerStr email) = false) :
    (password.length < 6 →
      create_user email password new_id db = .error .passwordTooShort)
    ∧ (6 ≤ password.length → stripStr password ≠ "" → utf8Len (stripStr password) ≤ 72 →
        create_user email password new_id db =
          .ok (⟨new_id, lowerStr email, ⟨stripStr password⟩, true⟩,
               db ++ [⟨new_id, lowerStr email, ⟨stripStr password⟩, true⟩]))
    ∧ (6 ≤ password.length → 72 < utf8Len (stripStr password) →
        create_user email password new_id db =
          .ok (⟨new_id, lowerStr email, ⟨utf8Truncate 72 (stripStr password)⟩, true⟩,
               db ++ [⟨new_id, lowerStr email, ⟨utf8Truncate 72 (stripStr password)⟩, true⟩])) := by
  refine ⟨?_, ?_, ?_⟩
  · intro hshort
    unfold create_user
    rw [hdom]
    simp only [Bool.not_true, Bool.false_eq_true, if_false]
    rw [if_pos hshort]
  · intro hlen hne h72
    unfold create_user
    rw [hdom]
    simp only [Bool.not_true, Bool.false_eq_true, if_false]
    rw [if_neg (show ¬ password.length < 6 by omega), hfree]
    simp only [Bool.false_eq_true, if_false]
    rw [get_password_hash_eq,
      if_neg (show ¬ 72 < utf8Len (stripStr password) by omega),
      if_neg hne]
  · intro hlen h72
    unfold create_user
    rw [hdom]
    simp only [Bool.not_true, Bool.false_eq_true, if_false]
    rw [if_neg (show ¬ password.length < 6 by omega), hfree]
    simp only [Bool.false_eq_true, if_false]
    have hne : utf8Truncate 72 (stripStr password) ≠ "" := by
      intro hcon
      have hdata := congrArg String.data hcon
      exact utf8TakeChars_72_ne_nil (stripStr password).data h72 hdata
    rw [get_password_hash_eq, if_pos h72, if_neg hne]

/-- C5 witness: an in-bound password. -/
theorem signup_password_policy_witness :
    ("abcdefgh".length < 6 →
      create_user "a@asl.apps-eval.com" "abcdefgh" "u9" [] = .error .passwordTooShort)
    ∧ (6 ≤ "abcdefgh".length → stripStr "abcdefgh" ≠ "" →
        utf8Len (stripStr "abcdefgh") ≤ 72 →
        create_user "a@asl.apps-eval.com" "abcdefgh" "u9" [] =
          .ok (⟨"u9", lowerStr "a@asl.apps-eval.com", ⟨stripStr "abcdefgh"⟩, true⟩,
               [] ++ [⟨"u9", lowerStr "a@asl.apps-eval.com", ⟨stripStr "abcdefgh"⟩, true⟩]))
    ∧ (6 ≤ "abcdefgh".length → 72 < utf8Len (stripStr "abcdefgh") →
        create_user "a@asl.apps-eval.com" "abcdefgh" "u9" [] =
          .ok (⟨"u9", lowerStr "a@asl.apps-eval.com", ⟨utf8Truncate 72 (stripStr "abcdefgh")⟩, true⟩,
               [] ++ [⟨"u9", lowerStr "a@asl.apps-eval.com",
                       ⟨utf8Truncate 72 (stripStr "abcdefgh")⟩, true⟩])) :=
  signup_password_policy "a@asl.apps-eval.com" "abcdefgh" "u9" [] (by decide) (by decide)

/-- C6 counterexample: `create_user` accepts the password `"abcdef "` but
hashes its stripped form, while `authenticate_user` does not strip — the
round trip with the very password that was accepted fails. -/
theorem roundtrip_whitespace_cex :
    create_user "a@asl.apps-eval.com" "abcdef " "u1" [] = .ok (spacedUser, [spacedUser])
    ∧ spacedUser.password_hash.preimage = "abcdef"
    ∧ authenticate_user "a@asl.apps-eval.com" "abcdef " [spacedUser] = none := by
  decide

/-- C6 amended: for every accepted signup whose password has no leading or
trailing whitespace (in the Python `str.strip()` sense, covering all Unicode
whitespace), authenticating with the same email and password against the
resulting collection succeeds and returns the created user. -/
theorem signup_login_roundtrip (email password new_id : String) (db : List UserDoc)
    (r : UserDoc × List UserDoc)
    (hstrip : stripStr password = password)
    (hc : create_user email password new_id db = .ok r) :
    authenticate_user email password r.2 = some (r.1.user_id, r.1.email) := by
  unfold create_user at hc
  by_cases hdom : validate_email_domain email
  case neg => rw [if_pos (by simp [hdom])] at hc; exact absurd hc (by simp)
  rw [if_neg (by simp [hdom])] at hc
  by_cases hshort : password.length < 6
  case pos => rw [if_pos hshort] at hc; exact absurd hc (by simp)
  rw [if_neg hshort] at hc
  by_cases hdup : db.any (fun u => u.email == lowerStr email) = true
  case pos => rw [if_pos hdup] at hc; exact absurd hc (by simp)
  rw [if_neg hdup] at hc
  rw [get_password_hash_eq, hstrip] at hc
  by_cases hempty : (if 72 < utf8Len password then utf8Truncate 72 password else password) = ""
  case pos => rw [if_pos hempty] at hc; exact absurd hc (by simp)
  rw [if_neg hempty] at hc
  have hr : r = (⟨new_id, lowerStr email,
      ⟨if 72 < utf8Len password then utf8Truncate 72 password else password⟩, true⟩,
      db ++ [⟨new_id, lowerStr email,
      ⟨if 72 < utf8Len password then utf8Truncate 72 password else password⟩, true⟩]) := by
    cases hc
    rfl
  rw [hr]
  unfold authenticate_user
  rw [find?_append_last _ db _ (by simpa using hdup) (by simp)]
  simp only [Bool.not_true, Bool.false_eq_true, if_false]
  rw [show verify_password
      (if 72 < utf8Len password then utf8Truncate 72 password else password)
      ⟨if 72 < utf8Len password then utf8Truncate 72 password else password⟩ = true from
    beq_self_eq_true _]
  simp

/-- C6 witness: a plain signup and login with password `"abcdef"`. -/
theorem signup_login_roundtrip_witness :
    stripStr "abcdef" = "abcdef"
    ∧ create_user "b@asl.apps-eval.com" "abcdef" "u2" [] = .ok (plainUser, [plainUser])
    ∧ authenticate_user "b@asl.apps-eval.com" "abcdef" [plainUser]
        = some (plainUser.user_id, plainUser.email) :=
  ⟨by decide, by decide,
   signup_login_roundtrip "b@asl.apps-eval.com" "abcdef" "u2" [] (plainUser, [plainUser])
     (by decide) (by decide)⟩

/-- C7: `authenticate_user` returns the identical value `none` in every
mismatch case — unknown email, deactivated account, wrong password — so any
two mismatch runs produce equal responses. -/
theorem auth_mismatch_indistinguishable (e₁ p₁ : String) (db₁ : List UserDoc)
    (e₂ p₂ : String) (db₂ : List UserDoc)
    (h₁ : authMismatch e₁ p₁ db₁) (h₂ : authMismatch e₂ p₂ db₂) :
    authenticate_user e₁ p₁ db₁ = authenticate_user e₂ p₂ db₂
    ∧ authenticate_user e₁ p₁ db₁ = none := by
  have n₁ := authenticate_mismatch_none e₁ p₁ db₁ h₁
  have n₂ := authenticate_mismatch_none e₂ p₂ db₂ h₂
  exact ⟨n₁.trans n₂.symm, n₁⟩

/-- C7 witness: an unknown email against the empty collection versus a wrong
password against an active account. -/
theorem auth_mismatch_indistinguishable_witness :
    authenticate_user "nobody@asl.apps-eval.com" "abcdef" []
        = authenticate_user "c@asl.apps-eval.com" "wrongpass" [activeUser]
    ∧ authenticate_user "nobody@asl.apps-eval.com" "abcdef" [] = none :=
  auth_mismatch_indistinguishable "nobody@asl.apps-eval.com" "abcdef" []
    "c@asl.apps-eval.com" "wrongpass" [activeUser]
    (Or.inl (by decide))
    (Or.inr (Or.inr ⟨activeUser, by decide, by decide, by decide⟩))

/-- C10: the `/agents` listing is sorted ascending by display name for every
cache state, clock value, force-refresh flag and scan outcome. -/
theorem agents_listing_sorted (force_refresh : Bool) (st : CacheState) (now : Nat)
    (outcome : ScanOutcome) :
    List.Sorted displayLe (list_agents force_refresh st now outcome) :=
  List.sorted_insertionSort displayLe _

end GcpBilling
